import Mathlib

/-!
Shallow embedding of the dota2-interactive-agent core:
the profile evolution engine (`server/src/services/memory.ts`),
the preference extractor (`server/src/services/profile.ts`),
and the LLM provider gateway (`LLMService` / `createLLMService`).

TypeScript strings are modelled as Lean `String`; `string | null` and
optional fields as `Option String`.  JavaScript truthiness of a string
value (`if (s)`) is `s ≠ ""` for a present string, false for null /
undefined.  `toLowerCase` is modelled per-character (the data handled by
this program — hero names, role names, playstyle descriptors — is ASCII).
-/

/-- Per-character lower-casing, modelling JavaScript `toLowerCase` on the
ASCII data this program handles. -/
def strLower (s : String) : String :=
  String.mk (s.data.map Char.toLower)

/-- Does the character list `hay` start with `pat`? -/
def startsWithList : List Char → List Char → Bool
  | _, [] => true
  | [], _ :: _ => false
  | a :: as, b :: bs => a = b && startsWithList as bs

/-- Does `pat` occur contiguously inside `hay` (JavaScript `includes`)? -/
def containsList : List Char → List Char → Bool
  | [], pat => pat.isEmpty
  | a :: rest, pat => startsWithList (a :: rest) pat || containsList rest pat

/-- Case-insensitive substring test: JavaScript
`hay.toLowerCase().includes(needle.toLowerCase())`. -/
def includesCI (hay needle : String) : Bool :=
  containsList (hay.data.map Char.toLower) (needle.data.map Char.toLower)

/-- JavaScript truthiness of an optional string: false for
null/undefined and for the empty string. -/
def truthyStr : Option String → Bool
  | none => false
  | some s => !(s == "")

/-! ## Data model (`routes/profile.ts`, `services/profile.ts`, `services/memory.ts`) -/

/-- `UserProfile` from `server/src/routes/profile.ts`. -/
structure UserProfile where
  userId : Nat
  preferredHeroes : List String
  preferredRoles : List String
  skillLevel : Option String
  mmrBracket : Option String
  playstyle : Option String
  learningGoals : List String
  createdAt : String
  updatedAt : String
  deriving DecidableEq, Repr

/-- `ExtractedPreferences` from `server/src/services/profile.ts`: all
fields optional. -/
structure ExtractedPreferences where
  heroes : Option (List String) := none
  roles : Option (List String) := none
  skillLevel : Option String := none
  playstyle : Option String := none
  learningGoals : Option (List String) := none
  deriving DecidableEq, Repr

/-- The `action` field of a `MemoryUpdate`. -/
inductive MemoryAction where
  | add
  | replace
  | merge
  deriving DecidableEq, Repr

/-- Runtime values stored in a `MemoryUpdate`'s `oldValue`/`newValue`
(`unknown` in the source; in practice a string, a string array, or null). -/
inductive ProfileValue where
  | str : String → ProfileValue
  | strList : List String → ProfileValue
  | null : ProfileValue
  deriving DecidableEq, Repr

/-- Conversion of a `string | null` field to the value recorded in a
`MemoryUpdate`. -/
def optVal : Option String → ProfileValue
  | some s => .str s
  | none => .null

/-- `MemoryUpdate` from `server/src/services/memory.ts`. -/
structure MemoryUpdate where
  field : String
  oldValue : ProfileValue
  newValue : ProfileValue
  action : MemoryAction
  deriving DecidableEq, Repr

/-- `Partial<UserProfile>` as produced by `evolveProfile`: only the five
preference fields are ever set. -/
structure ProfileUpdate where
  preferredHeroes : Option (List String) := none
  preferredRoles : Option (List String) := none
  skillLevel : Option String := none
  playstyle : Option String := none
  learningGoals : Option (List String) := none
  deriving DecidableEq, Repr

/-- `EvolutionResult` from `server/src/services/memory.ts`. -/
structure EvolutionResult where
  updated : ProfileUpdate
  changes : List MemoryUpdate
  deriving DecidableEq, Repr

/-! ## Evolution engine (`evolveProfile`, `server/src/services/memory.ts`)

The source is a sequence of five independent per-field blocks, each of
which may set one field of `updated` and push one entry onto `changes`.
Each block is embedded as a function returning `none` (block did not
fire) or `some (newFieldValue, changeEntry)`, and `evolveProfile`
assembles them in source order. -/

/-- Heroes block of `evolveProfile`: add new heroes (exact string
match), never remove. -/
def evolveHeroes (current : UserProfile) (extracted : ExtractedPreferences) :
    Option (List String × MemoryUpdate) :=
  match extracted.heroes with
  | none => none
  | some hs =>
    if hs.length > 0 then
      let newHeroes := hs.filter (fun h => !(current.preferredHeroes.contains h))
      if newHeroes.length > 0 then
        let mergedHeroes := current.preferredHeroes ++ newHeroes
        some (mergedHeroes,
          ⟨"preferredHeroes", .strList current.preferredHeroes, .strList mergedHeroes, .add⟩)
      else none
    else none

/-- Roles block of `evolveProfile`: add roles not yet present under
case-insensitive comparison. -/
def evolveRoles (current : UserProfile) (extracted : ExtractedPreferences) :
    Option (List String × MemoryUpdate) :=
  match extracted.roles with
  | none => none
  | some rs =>
    if rs.length > 0 then
      let newRoles := rs.filter
        (fun r => !((current.preferredRoles.map strLower).contains (strLower r)))
      if newRoles.length > 0 then
        let mergedRoles := current.preferredRoles ++ newRoles
        some (mergedRoles,
          ⟨"preferredRoles", .strList current.preferredRoles, .strList mergedRoles, .add⟩)
      else none
    else none

/-- Skill-level block of `evolveProfile`: replace when different. -/
def evolveSkill (current : UserProfile) (extracted : ExtractedPreferences) :
    Option (String × MemoryUpdate) :=
  match extracted.skillLevel with
  | none => none
  | some s =>
    if s == "" then none
    else if current.skillLevel == some s then none
    else some (s, ⟨"skillLevel", optVal current.skillLevel, .str s, .replace⟩)

/-- Playstyle block of `evolveProfile`: set if absent, merge by
concatenation if not already contained case-insensitively. -/
def evolvePlaystyle (current : UserProfile) (extracted : ExtractedPreferences) :
    Option (String × MemoryUpdate) :=
  match extracted.playstyle with
  | none => none
  | some s =>
    if s == "" then none
    else if !(truthyStr current.playstyle) then
      some (s, ⟨"playstyle", optVal current.playstyle, .str s, .replace⟩)
    else
      let cur := current.playstyle.getD ""
      if !(includesCI cur s) then
        let merged := cur ++ ", " ++ s
        some (merged, ⟨"playstyle", optVal current.playstyle, .str merged, .merge⟩)
      else none

/-- Learning-goals block of `evolveProfile`: add goals not yet present
under case-insensitive comparison. -/
def evolveGoals (current : UserProfile) (extracted : ExtractedPreferences) :
    Option (List String × MemoryUpdate) :=
  match extracted.learningGoals with
  | none => none
  | some gs =>
    if gs.length > 0 then
      let newGoals := gs.filter
        (fun g => !((current.learningGoals.map strLower).contains (strLower g)))
      if newGoals.length > 0 then
        let mergedGoals := current.learningGoals ++ newGoals
        some (mergedGoals,
          ⟨"learningGoals", .strList current.learningGoals, .strList mergedGoals, .add⟩)
      else none
    else none

/-- `evolveProfile` from `server/src/services/memory.ts`: merge new
preferences into the existing profile without losing old data.  Changes
are recorded in the source's block order: heroes, roles, skillLevel,
playstyle, learningGoals. -/
def evolveProfile (current : UserProfile) (extracted : ExtractedPreferences) :
    EvolutionResult :=
  let hb := evolveHeroes current extracted
  let rb := evolveRoles current extracted
  let sb := evolveSkill current extracted
  let pb := evolvePlaystyle current extracted
  let gb := evolveGoals current extracted
  { updated :=
      { preferredHeroes := hb.map (·.1)
        preferredRoles := rb.map (·.1)
        skillLevel := sb.map (·.1)
        playstyle := pb.map (·.1)
        learningGoals := gb.map (·.1) }
    changes :=
      (hb.map (·.2)).toList ++ (rb.map (·.2)).toList ++ (sb.map (·.2)).toList ++
        (pb.map (·.2)).toList ++ (gb.map (·.2)).toList }

/-- Application of an `EvolutionResult.updated` partial record to a
profile, as the storage collaborator's `applyProfileUpdate` does: each
present field replaces the profile's field. -/
def applyUpdate (p : UserProfile) (u : ProfileUpdate) : UserProfile :=
  { p with
    preferredHeroes := u.preferredHeroes.getD p.preferredHeroes
    preferredRoles := u.preferredRoles.getD p.preferredRoles
    skillLevel := match u.skillLevel with | some s => some s | none => p.skillLevel
    playstyle := match u.playstyle with | some s => some s | none => p.playstyle
    learningGoals := u.learningGoals.getD p.learningGoals }

/-- The hero list after evolution: the `updated` field when present,
else the old list kept unchanged. -/
def heroesAfter (p : UserProfile) (e : ExtractedPreferences) : List String :=
  ((evolveProfile p e).updated.preferredHeroes).getD p.preferredHeroes

/-- The role list after evolution. -/
def rolesAfter (p : UserProfile) (e : ExtractedPreferences) : List String :=
  ((evolveProfile p e).updated.preferredRoles).getD p.preferredRoles

/-- The learning-goal list after evolution. -/
def goalsAfter (p : UserProfile) (e : ExtractedPreferences) : List String :=
  ((evolveProfile p e).updated.learningGoals).getD p.learningGoals

/-! ## Preference extractor (`server/src/services/profile.ts`)

The network call itself is outside the embedding; everything from the
returned completion text onward (fence stripping, `JSON.parse`,
field-by-field validation, the surrounding `try/catch`) is embedded.
`JSON.parse` is taken as a parameter `parse : String → Option Json`
(`none` models a thrown `SyntaxError`). -/

/-- JSON values, the possible results of `JSON.parse`. -/
inductive Json where
  | null : Json
  | bool : Bool → Json
  | num : Int → Json
  | str : String → Json
  | arr : List Json → Json
  | obj : List (String × Json) → Json

/-- JavaScript property access `v.name` on a parsed JSON value:
`undefined` (here `none`) on objects lacking the field and on
non-object non-null values.  Access on `null` throws in JavaScript and
is handled separately in `validatePrefs`. -/
def Json.getField : Json → String → Option Json
  | .obj fields, name => (fields.find? (fun f => f.1 == name)).map (·.2)
  | _, _ => none

/-- The string payload of a JSON value, when it is a string
(`typeof x === "string"`). -/
def Json.asStr : Json → Option String
  | .str s => some s
  | _ => none

/-- The fixed closed role vocabulary of the extractor's validation step. -/
def validRoles : List String :=
  ["carry", "mid", "offlane", "soft support", "hard support", "support"]

/-- Locate the first triple-backtick fence in a character list, returning
the text before it and the text after it. -/
def splitAtFence : List Char → Option (List Char × List Char)
  | [] => none
  | c :: rest =>
    if c = '`' ∧ rest.take 2 = ['`', '`'] then some ([], rest.drop 2)
    else (splitAtFence rest).map (fun ba => (c :: ba.1, ba.2))

/-- Fence stripping of `extractPreferences`: the regex
match of a fenced code block with optional `json` tag; on a match the
trimmed capture replaces the content, otherwise the content is kept. -/
def stripFence (content : String) : String :=
  match splitAtFence content.data with
  | none => content
  | some op =>
    let afterTag := if op.2.take 4 = ['j', 's', 'o', 'n'] then op.2.drop 4 else op.2
    let afterWs := afterTag.dropWhile Char.isWhitespace
    match splitAtFence afterWs with
    | none => content
    | some cl => (String.mk cl.1).trim

/-- Is a JSON value the null value? -/
def Json.isNull : Json → Bool
  | .null => true
  | _ => false

/-- Field-by-field validation of the parsed extraction output.
`Except Unit` models the JavaScript `TypeError` thrown by property
access on `null` (caught by the caller); every other shape validates
totally. -/
def validatePrefs (parsed : Json) : Except Unit ExtractedPreferences :=
  if parsed.isNull then .error ()
  else
    let heroes :=
      match parsed.getField "heroes" with
      | some (.arr xs) =>
        if xs.length > 0 then some (xs.filterMap Json.asStr) else none
      | _ => none
    let roles :=
      match parsed.getField "roles" with
      | some (.arr xs) =>
        if xs.length > 0 then
          some (xs.filterMap (fun j =>
            match j.asStr with
            | some r => if validRoles.contains (strLower r) then some r else none
            | none => none))
        else none
      | _ => none
    let skill :=
      match (parsed.getField "skillLevel").bind Json.asStr with
      | some s => if s.trim == "" then none else some s.trim
      | none => none
    let play :=
      match (parsed.getField "playstyle").bind Json.asStr with
      | some s => if s.trim == "" then none else some s.trim
      | none => none
    let goals :=
      match parsed.getField "learningGoals" with
      | some (.arr xs) =>
        if xs.length > 0 then some (xs.filterMap Json.asStr) else none
      | _ => none
    .ok { heroes := heroes, roles := roles, skillLevel := skill,
          playstyle := play, learningGoals := goals }

/-- The pure core of `extractPreferences`: from the completion text to
the validated record, with the `try/catch` turning any parse or
validation failure into the empty record. -/
def extractPreferencesCore (parse : String → Option Json) (content : String) :
    ExtractedPreferences :=
  let jsonStr := stripFence content.trim
  match parse jsonStr with
  | none => {}
  | some parsed =>
    match validatePrefs parsed with
    | .error _ => {}
    | .ok r => r

/-- `hasPreferences` from `server/src/services/profile.ts`. -/
def hasPreferences (prefs : ExtractedPreferences) : Bool :=
  (match prefs.heroes with | some hs => hs.length > 0 | none => false) ||
  (match prefs.roles with | some rs => rs.length > 0 | none => false) ||
  (match prefs.learningGoals with | some gs => gs.length > 0 | none => false) ||
  truthyStr prefs.skillLevel ||
  truthyStr prefs.playstyle

/-! ## LLM provider gateway (`LLMService`, `createLLMService`)

The HTTP transport is outside the embedding.  What is embedded: the
construction-time provider selection and default resolution, the
Anthropic request-body shaping, and — for each provider family — the
step from a decoded 2xx response body to either a completion or the
empty-completion error. -/

/-- Message roles of the gateway's uniform interface. -/
inductive ChatRole where
  | system
  | user
  | assistant
  deriving DecidableEq, Repr

/-- A role-tagged chat message. -/
structure ChatMessage where
  role : ChatRole
  content : String
  deriving DecidableEq, Repr

/-- The closed set of providers. -/
inductive Provider where
  | openai
  | anthropic
  | openrouter
  deriving DecidableEq, Repr

/-- `DEFAULT_MODELS` from the gateway source. -/
def DEFAULT_MODELS : Provider → String
  | .openai => "gpt-4o-mini"
  | .anthropic => "claude-sonnet-4-20250514"
  | .openrouter => "openai/gpt-4o-mini"

/-- `DEFAULT_URLS` from the gateway source. -/
def DEFAULT_URLS : Provider → String
  | .openai => "https://api.openai.com/v1"
  | .anthropic => "https://api.anthropic.com/v1"
  | .openrouter => "https://openrouter.ai/api/v1"

/-- Gateway errors: the thrown `Error` values of the source, by kind. -/
inductive LLMError where
  | emptyCompletion
  | transportFailure (status : Nat) (body : String)
  | noProviderConfigured
  deriving DecidableEq, Repr

/-- The configuration resolved in the `LLMService` constructor:
provider, key, and model / base URL after applying defaults. -/
structure LLMService where
  provider : Provider
  apiKey : String
  model : String
  baseUrl : String
  deriving DecidableEq, Repr

/-- The `LLMService` constructor: apply default model and base URL when
not overridden (`??`, which accepts an empty string as an override). -/
def mkLLMService (provider : Provider) (apiKey : String)
    (model : Option String) (baseUrl : Option String) : LLMService :=
  { provider := provider
    apiKey := apiKey
    model := model.getD (DEFAULT_MODELS provider)
    baseUrl := baseUrl.getD (DEFAULT_URLS provider) }

/-- The environment record consumed by `createLLMService`. -/
structure Env where
  ANTHROPIC_API_KEY : Option String := none
  OPENAI_API_KEY : Option String := none
  OPENROUTER_API_KEY : Option String := none
  LLM_PROVIDER : Option String := none
  LLM_MODEL : Option String := none
  deriving DecidableEq, Repr

/-- `createLLMService`: explicit provider override when its key is a
truthy string, then auto-detection in the order Anthropic, OpenAI,
OpenRouter; throws when no key is configured. -/
def createLLMService (env : Env) : Except LLMError LLMService :=
  if env.LLM_PROVIDER == some "anthropic" && truthyStr env.ANTHROPIC_API_KEY then
    .ok (mkLLMService .anthropic (env.ANTHROPIC_API_KEY.getD "") env.LLM_MODEL none)
  else if env.LLM_PROVIDER == some "openai" && truthyStr env.OPENAI_API_KEY then
    .ok (mkLLMService .openai (env.OPENAI_API_KEY.getD "") env.LLM_MODEL none)
  else if env.LLM_PROVIDER == some "openrouter" && truthyStr env.OPENROUTER_API_KEY then
    .ok (mkLLMService .openrouter (env.OPENROUTER_API_KEY.getD "") env.LLM_MODEL none)
  else if truthyStr env.ANTHROPIC_API_KEY then
    .ok (mkLLMService .anthropic (env.ANTHROPIC_API_KEY.getD "") env.LLM_MODEL none)
  else if truthyStr env.OPENAI_API_KEY then
    .ok (mkLLMService .openai (env.OPENAI_API_KEY.getD "") env.LLM_MODEL none)
  else if truthyStr env.OPENROUTER_API_KEY then
    .ok (mkLLMService .openrouter (env.OPENROUTER_API_KEY.getD "") env.LLM_MODEL none)
  else
    .error .noProviderConfigured

/-! ### Anthropic request shaping (`chatAnthropic`) -/

/-- One iteration of the `chatAnthropic` loop: a system-role message
overwrites the `systemPrompt` variable, every other message is appended
(unchanged) to the conversation list. -/
def anthropicStep (acc : Option String × List ChatMessage) (msg : ChatMessage) :
    Option String × List ChatMessage :=
  match msg.role with
  | .system => (some msg.content, acc.2)
  | _ => (acc.1, acc.2 ++ [msg])

/-- The loop of `chatAnthropic` over the input messages. -/
def anthropicCollect (messages : List ChatMessage) :
    Option String × List ChatMessage :=
  messages.foldl anthropicStep (none, [])

/-- The wire request body of the Anthropic path.  The top-level
`system` field is set only when the collected system prompt is a truthy
(non-empty) string. -/
structure AnthropicBody where
  model : String
  messages : List ChatMessage
  max_tokens : Nat
  temperature : Rat
  system : Option String
  deriving DecidableEq, Repr

/-- Construction of the Anthropic request body from the model name,
input messages, and options. -/
def anthropicBody (model : String) (messages : List ChatMessage)
    (maxTokens : Nat) (temperature : Rat) : AnthropicBody :=
  let collected := anthropicCollect messages
  { model := model
    messages := collected.2
    max_tokens := maxTokens
    temperature := temperature
    system := match collected.1 with
      | some s => if s == "" then none else some s
      | none => none }

/-! ### Response parsing (both provider families) -/

/-- Token-usage counters of the gateway's uniform response. -/
structure LLMUsage where
  inputTokens : Nat
  outputTokens : Nat
  deriving DecidableEq, Repr

/-- The gateway's uniform response shape. -/
structure LLMResponse where
  content : String
  usage : Option LLMUsage
  deriving DecidableEq, Repr

/-- One element of `choices` in a decoded OpenAI-family response body. -/
structure OpenAIChoice where
  message : Option (Option String)
  deriving DecidableEq, Repr

/-- A decoded OpenAI-family 2xx response body: optional `choices` and
optional usage counters (`prompt_tokens`, `completion_tokens`). -/
structure OpenAIData where
  choices : Option (List OpenAIChoice)
  usage : Option (Option Nat × Option Nat)
  deriving DecidableEq, Repr

/-- The completion string read by the OpenAI path:
optional-chaining through `choices[0].message.content` with `?? ""`. -/
def openAIContent (data : OpenAIData) : String :=
  ((((data.choices.bind List.head?).bind (·.message)).bind id).getD "")

/-- The final step of `chatOpenAI` after a 2xx response: reject an
empty completion string, otherwise return it with mapped usage. -/
def chatOpenAIParse (data : OpenAIData) : Except LLMError LLMResponse :=
  let content := openAIContent data
  if content == "" then .error .emptyCompletion
  else
    .ok { content := content
          usage := data.usage.map (fun u => ⟨u.1.getD 0, u.2.getD 0⟩) }

/-- One element of `content` in a decoded Anthropic 2xx response body. -/
structure AnthropicContentBlock where
  type : String
  text : Option String
  deriving DecidableEq, Repr

/-- A decoded Anthropic 2xx response body. -/
structure AnthropicData where
  content : Option (List AnthropicContentBlock)
  usage : Option (Option Nat × Option Nat)
  deriving DecidableEq, Repr

/-- The completion string read by the Anthropic path: the `text` of the
first content block whose `type` is `"text"`, with `?? ""`. -/
def anthropicContent (data : AnthropicData) : String :=
  ((data.content.bind (fun cs => cs.find? (fun c => c.type == "text"))).bind
    (·.text)).getD ""

/-- The final step of `chatAnthropic` after a 2xx response: reject an
empty completion string, otherwise return it with mapped usage. -/
def chatAnthropicParse (data : AnthropicData) : Except LLMError LLMResponse :=
  let textContent := anthropicContent data
  if textContent == "" then .error .emptyCompletion
  else
    .ok { content := textContent
          usage := data.usage.map (fun u => ⟨u.1.getD 0, u.2.getD 0⟩) }

/-! ## Sample values used by witnesses -/

/-- A small concrete profile. -/
def sampleProfile : UserProfile :=
  { userId := 1
    preferredHeroes := ["Axe"]
    preferredRoles := ["mid"]
    skillLevel := some "Archon"
    mmrBracket := none
    playstyle := some "aggressive"
    learningGoals := ["last hitting"]
    createdAt := "2024-01-01"
    updatedAt := "2024-01-01" }

/-- A small concrete extracted record. -/
def sampleExtracted : ExtractedPreferences :=
  { heroes := some ["Mirana"]
    roles := some ["carry"]
    skillLevel := some "Legend"
    playstyle := some "farming focused"
    learningGoals := some ["warding"] }

/-! ## Shape lemmas about the evolution blocks -/

lemma evolveHeroes_shape (p : UserProfile) (e : ExtractedPreferences)
    (v : List String) (c : MemoryUpdate) (h : evolveHeroes p e = some (v, c)) :
    ∃ hs, e.heroes = some hs ∧
      v = p.preferredHeroes ++ hs.filter (fun x => !(p.preferredHeroes.contains x)) := by
  cases he : e.heroes with
  | none => simp [evolveHeroes, he] at h
  | some hs =>
    refine ⟨hs, rfl, ?_⟩
    simp only [evolveHeroes, he] at h
    split_ifs at h with h1 h2
    · exact (Prod.mk.injEq .. ▸ (Option.some.injEq .. ▸ h)).1.symm ▸ rfl

lemma evolveRoles_shape (p : UserProfile) (e : ExtractedPreferences)
    (v : List String) (c : MemoryUpdate) (h : evolveRoles p e = some (v, c)) :
    ∃ rs, e.roles = some rs ∧
      v = p.preferredRoles ++
        rs.filter (fun x => !((p.preferredRoles.map strLower).contains (strLower x))) := by
  cases he : e.roles with
  | none => simp [evolveRoles, he] at h
  | some rs =>
    refine ⟨rs, rfl, ?_⟩
    simp only [evolveRoles, he] at h
    split_ifs at h with h1 h2
    · exact (Prod.mk.injEq .. ▸ (Option.some.injEq .. ▸ h)).1.symm ▸ rfl

lemma evolveGoals_shape (p : UserProfile) (e : ExtractedPreferences)
    (v : List String) (c : MemoryUpdate) (h : evolveGoals p e = some (v, c)) :
    ∃ gs, e.learningGoals = some gs ∧
      v = p.learningGoals ++
        gs.filter (fun x => !((p.learningGoals.map strLower).contains (strLower x))) := by
  cases he : e.learningGoals with
  | none => simp [evolveGoals, he] at h
  | some gs =>
    refine ⟨gs, rfl, ?_⟩
    simp only [evolveGoals, he] at h
    split_ifs at h with h1 h2
    · exact (Prod.mk.injEq .. ▸ (Option.some.injEq .. ▸ h)).1.symm ▸ rfl

lemma heroesAfter_eq (p : UserProfile) (e : ExtractedPreferences) :
    heroesAfter p e = ((evolveHeroes p e).map (·.1)).getD p.preferredHeroes := rfl

lemma rolesAfter_eq (p : UserProfile) (e : ExtractedPreferences) :
    rolesAfter p e = ((evolveRoles p e).map (·.1)).getD p.preferredRoles := rfl

lemma goalsAfter_eq (p : UserProfile) (e : ExtractedPreferences) :
    goalsAfter p e = ((evolveGoals p e).map (·.1)).getD p.learningGoals := rfl

/-- C1.  For every profile and extracted record, the evolution result
never removes an element: every element of `preferredHeroes`,
`preferredRoles` and `learningGoals` occurs in the corresponding list
after evolution (the `updated` list when present, the old list kept
unchanged otherwise). -/
theorem evolve_never_removes (p : UserProfile) (e : ExtractedPreferences) (x : String) :
    (x ∈ p.preferredHeroes → x ∈ heroesAfter p e) ∧
    (x ∈ p.preferredRoles → x ∈ rolesAfter p e) ∧
    (x ∈ p.learningGoals → x ∈ goalsAfter p e) := by
  refine ⟨fun hx => ?_, fun hx => ?_, fun hx => ?_⟩
  · rw [heroesAfter_eq]
    cases hh : evolveHeroes p e with
    | none => simpa using hx
    | some vc =>
      obtain ⟨hs, _, hv⟩ := evolveHeroes_shape p e vc.1 vc.2 (by rw [hh])
      simp only [Option.map_some', Option.getD_some, hv]
      exact List.mem_append_left _ hx
  · rw [rolesAfter_eq]
    cases hh : evolveRoles p e with
    | none => simpa using hx
    | some vc =>
      obtain ⟨rs, _, hv⟩ := evolveRoles_shape p e vc.1 vc.2 (by rw [hh])
      simp only [Option.map_some', Option.getD_some, hv]
      exact List.mem_append_left _ hx
  · rw [goalsAfter_eq]
    cases hh : evolveGoals p e with
    | none => simpa using hx
    | some vc =>
      obtain ⟨gs, _, hv⟩ := evolveGoals_shape p e vc.1 vc.2 (by rw [hh])
      simp only [Option.map_some', Option.getD_some, hv]
      exact List.mem_append_left _ hx

/-- Witness for C1 at concrete inputs. -/
theorem evolve_never_removes_witness :
    ("Axe" ∈ sampleProfile.preferredHeroes ∧
      "Axe" ∈ heroesAfter sampleProfile sampleExtracted) ∧
    ("mid" ∈ sampleProfile.preferredRoles ∧
      "mid" ∈ rolesAfter sampleProfile sampleExtracted) ∧
    ("last hitting" ∈ sampleProfile.learningGoals ∧
      "last hitting" ∈ goalsAfter sampleProfile sampleExtracted) :=
  ⟨⟨by decide, (evolve_never_removes sampleProfile sampleExtracted "Axe").1 (by decide)⟩,
   ⟨by decide, (evolve_never_removes sampleProfile sampleExtracted "mid").2.1 (by decide)⟩,
   ⟨by decide,
    (evolve_never_removes sampleProfile sampleExtracted "last hitting").2.2 (by decide)⟩⟩

/-! ## C4: duplicate-freedom under evolution -/

/-- A profile with all preference fields empty. -/
def blankProfile : UserProfile :=
  { userId := 1
    preferredHeroes := []
    preferredRoles := []
    skillLevel := none
    mmrBracket := none
    playstyle := none
    learningGoals := []
    createdAt := ""
    updatedAt := "" }

/-- An extracted record whose hero list repeats one hero. -/
def dupExtracted : ExtractedPreferences :=
  { heroes := some ["Axe", "Axe"] }

/-- C4 counterexample: the extracted hero list may itself contain
duplicates, and `evolveProfile` filters only against the current
profile, so the duplicate-free profile `blankProfile` evolves into a
hero list with a duplicate. -/
theorem evolve_nodup_counterexample :
    blankProfile.preferredHeroes.Nodup ∧
    (blankProfile.preferredRoles.map strLower).Nodup ∧
    (blankProfile.learningGoals.map strLower).Nodup ∧
    ¬ (heroesAfter blankProfile dupExtracted).Nodup := by decide

/-- C4 amended.  When additionally the extracted lists are themselves
duplicate-free under the respective equalities, evolution preserves the
no-duplicates invariant: heroes case-sensitively, roles and learning
goals case-insensitively. -/
theorem evolve_preserves_nodup (p : UserProfile) (e : ExtractedPreferences)
    (hH : p.preferredHeroes.Nodup)
    (hR : (p.preferredRoles.map strLower).Nodup)
    (hG : (p.learningGoals.map strLower).Nodup)
    (eH : ∀ hs, e.heroes = some hs → hs.Nodup)
    (eR : ∀ rs, e.roles = some rs → (rs.map strLower).Nodup)
    (eG : ∀ gs, e.learningGoals = some gs → (gs.map strLower).Nodup) :
    (heroesAfter p e).Nodup ∧
    ((rolesAfter p e).map strLower).Nodup ∧
    ((goalsAfter p e).map strLower).Nodup := by
  refine ⟨?_, ?_, ?_⟩
  · rw [heroesAfter_eq]
    cases hh : evolveHeroes p e with
    | none => simpa using hH
    | some vc =>
      obtain ⟨hs, hhe, hv⟩ := evolveHeroes_shape p e vc.1 vc.2 (by rw [hh])
      simp only [Option.map_some', Option.getD_some, hv]
      rw [List.nodup_append]
      refine ⟨hH, (eH hs hhe).filter _, ?_⟩
      intro a ha hafil
      have hpa := (List.mem_filter.mp hafil).2
      simp at hpa
      exact hpa ha
  · rw [rolesAfter_eq]
    cases hh : evolveRoles p e with
    | none => simpa using hR
    | some vc =>
      obtain ⟨rs, hre, hv⟩ := evolveRoles_shape p e vc.1 vc.2 (by rw [hh])
      simp only [Option.map_some', Option.getD_some, hv, List.map_append]
      rw [List.nodup_append]
      refine ⟨hR, ((List.filter_sublist rs).map strLower).nodup (eR rs hre), ?_⟩
      intro a ha hafil
      obtain ⟨r, hrmem, hreq⟩ := List.mem_map.mp hafil
      have hp := (List.mem_filter.mp hrmem).2
      rw [hreq] at hp
      simp at hp
      obtain ⟨x, hx, hxeq⟩ := List.mem_map.mp ha
      exact hp x hx hxeq
  · rw [goalsAfter_eq]
    cases hh : evolveGoals p e with
    | none => simpa using hG
    | some vc =>
      obtain ⟨gs, hge, hv⟩ := evolveGoals_shape p e vc.1 vc.2 (by rw [hh])
      simp only [Option.map_some', Option.getD_some, hv, List.map_append]
      rw [List.nodup_append]
      refine ⟨hG, ((List.filter_sublist gs).map strLower).nodup (eG gs hge), ?_⟩
      intro a ha hafil
      obtain ⟨g, hgmem, hgeq⟩ := List.mem_map.mp hafil
      have hp := (List.mem_filter.mp hgmem).2
      rw [hgeq] at hp
      simp at hp
      obtain ⟨x, hx, hxeq⟩ := List.mem_map.mp ha
      exact hp x hx hxeq

/-- Witness for the amended C4 at concrete inputs. -/
theorem evolve_preserves_nodup_witness :
    (sampleProfile.preferredHeroes.Nodup ∧
      (sampleProfile.preferredRoles.map strLower).Nodup ∧
      (sampleProfile.learningGoals.map strLower).Nodup) ∧
    ((heroesAfter sampleProfile sampleExtracted).Nodup ∧
      ((rolesAfter sampleProfile sampleExtracted).map strLower).Nodup ∧
      ((goalsAfter sampleProfile sampleExtracted).map strLower).Nodup) :=
  ⟨by decide,
   evolve_preserves_nodup sampleProfile sampleExtracted (by decide) (by decide) (by decide)
     (by intro hs h; simp only [sampleExtracted, Option.some.injEq] at h; subst h; decide)
     (by intro rs h; simp only [sampleExtracted, Option.some.injEq] at h; subst h; decide)
     (by intro gs h; simp only [sampleExtracted, Option.some.injEq] at h; subst h; decide)⟩

/-! ## C2: idempotence of evolution -/

lemma startsWithList_refl (l : List Char) : startsWithList l l = true := by
  induction l with
  | nil => rfl
  | cons a as ih => simp [startsWithList, ih]

lemma containsList_self (l : List Char) : containsList l l = true := by
  cases l with
  | nil => rfl
  | cons a as => simp [containsList, startsWithList_refl]

lemma containsList_append_right (pre pat : List Char) :
    containsList (pre ++ pat) pat = true := by
  induction pre with
  | nil => simpa using containsList_self pat
  | cons a as ih => simp [containsList, ih]

lemma includesCI_self (s : String) : includesCI s s = true := containsList_self _

lemma includesCI_append_self (pre s : String) : includesCI (pre ++ s) s = true := by
  unfold includesCI
  rw [String.data_append, List.map_append]
  exact containsList_append_right _ _

lemma evolveProfile_updated (p : UserProfile) (e : ExtractedPreferences) :
    (evolveProfile p e).updated =
      { preferredHeroes := (evolveHeroes p e).map (·.1)
        preferredRoles := (evolveRoles p e).map (·.1)
        skillLevel := (evolveSkill p e).map (·.1)
        playstyle := (evolvePlaystyle p e).map (·.1)
        learningGoals := (evolveGoals p e).map (·.1) } := rfl

lemma applyUpdate_heroes (p : UserProfile) (e : ExtractedPreferences) :
    (applyUpdate p (evolveProfile p e).updated).preferredHeroes =
      (match evolveHeroes p e with
       | some vc => vc.1
       | none => p.preferredHeroes) := by
  simp only [applyUpdate, evolveProfile_updated]
  cases evolveHeroes p e <;> rfl

lemma applyUpdate_roles (p : UserProfile) (e : ExtractedPreferences) :
    (applyUpdate p (evolveProfile p e).updated).preferredRoles =
      (match evolveRoles p e with
       | some vc => vc.1
       | none => p.preferredRoles) := by
  simp only [applyUpdate, evolveProfile_updated]
  cases evolveRoles p e <;> rfl

lemma applyUpdate_skill (p : UserProfile) (e : ExtractedPreferences) :
    (applyUpdate p (evolveProfile p e).updated).skillLevel =
      (match evolveSkill p e with
       | some vc => some vc.1
       | none => p.skillLevel) := by
  simp only [applyUpdate, evolveProfile_updated]
  cases evolveSkill p e <;> rfl

lemma applyUpdate_playstyle (p : UserProfile) (e : ExtractedPreferences) :
    (applyUpdate p (evolveProfile p e).updated).playstyle =
      (match evolvePlaystyle p e with
       | some vc => some vc.1
       | none => p.playstyle) := by
  simp only [applyUpdate, evolveProfile_updated]
  cases evolvePlaystyle p e <;> rfl

lemma applyUpdate_goals (p : UserProfile) (e : ExtractedPreferences) :
    (applyUpdate p (evolveProfile p e).updated).learningGoals =
      (match evolveGoals p e with
       | some vc => vc.1
       | none => p.learningGoals) := by
  simp only [applyUpdate, evolveProfile_updated]
  cases evolveGoals p e <;> rfl

lemma evolveHeroes_congr (c c' : UserProfile) (e : ExtractedPreferences)
    (h : c'.preferredHeroes = c.preferredHeroes) : evolveHeroes c' e = evolveHeroes c e := by
  unfold evolveHeroes
  rw [h]

lemma evolveRoles_congr (c c' : UserProfile) (e : ExtractedPreferences)
    (h : c'.preferredRoles = c.preferredRoles) : evolveRoles c' e = evolveRoles c e := by
  unfold evolveRoles
  rw [h]

lemma evolveSkill_congr (c c' : UserProfile) (e : ExtractedPreferences)
    (h : c'.skillLevel = c.skillLevel) : evolveSkill c' e = evolveSkill c e := by
  unfold evolveSkill
  rw [h]

lemma evolvePlaystyle_congr (c c' : UserProfile) (e : ExtractedPreferences)
    (h : c'.playstyle = c.playstyle) : evolvePlaystyle c' e = evolvePlaystyle c e := by
  unfold evolvePlaystyle
  rw [h]

lemma evolveGoals_congr (c c' : UserProfile) (e : ExtractedPreferences)
    (h : c'.learningGoals = c.learningGoals) : evolveGoals c' e = evolveGoals c e := by
  unfold evolveGoals
  rw [h]

lemma evolveHeroes_idem (p : UserProfile) (e : ExtractedPreferences) :
    evolveHeroes (applyUpdate p (evolveProfile p e).updated) e = none := by
  cases hh : evolveHeroes p e with
  | none =>
    rw [evolveHeroes_congr p _ e (by rw [applyUpdate_heroes, hh])]
    exact hh
  | some vc =>
    obtain ⟨hs, hhe, hv⟩ := evolveHeroes_shape p e vc.1 vc.2 (by rw [hh])
    have hcur : (applyUpdate p (evolveProfile p e).updated).preferredHeroes =
        p.preferredHeroes ++ hs.filter (fun x => !(p.preferredHeroes.contains x)) := by
      rw [applyUpdate_heroes, hh]
      exact hv
    simp [evolveHeroes, hhe, hcur]
    exact fun _ a ha h => ⟨ha, h⟩

lemma evolveRoles_idem (p : UserProfile) (e : ExtractedPreferences) :
    evolveRoles (applyUpdate p (evolveProfile p e).updated) e = none := by
  cases hh : evolveRoles p e with
  | none =>
    rw [evolveRoles_congr p _ e (by rw [applyUpdate_roles, hh])]
    exact hh
  | some vc =>
    obtain ⟨rs, hre, hv⟩ := evolveRoles_shape p e vc.1 vc.2 (by rw [hh])
    have hcur : (applyUpdate p (evolveProfile p e).updated).preferredRoles =
        p.preferredRoles ++
          rs.filter (fun x => !((p.preferredRoles.map strLower).contains (strLower x))) := by
      rw [applyUpdate_roles, hh]
      exact hv
    simp [evolveRoles, hre, hcur]
    exact fun _ a ha h => ⟨a, ha, h, rfl⟩

lemma evolveGoals_idem (p : UserProfile) (e : ExtractedPreferences) :
    evolveGoals (applyUpdate p (evolveProfile p e).updated) e = none := by
  cases hh : evolveGoals p e with
  | none =>
    rw [evolveGoals_congr p _ e (by rw [applyUpdate_goals, hh])]
    exact hh
  | some vc =>
    obtain ⟨gs, hge, hv⟩ := evolveGoals_shape p e vc.1 vc.2 (by rw [hh])
    have hcur : (applyUpdate p (evolveProfile p e).updated).learningGoals =
        p.learningGoals ++
          gs.filter (fun x => !((p.learningGoals.map strLower).contains (strLower x))) := by
      rw [applyUpdate_goals, hh]
      exact hv
    simp [evolveGoals, hge, hcur]
    exact fun _ a ha h => ⟨a, ha, h, rfl⟩

lemma evolveSkill_shape (p : UserProfile) (e : ExtractedPreferences)
    (v : String) (c : MemoryUpdate) (h : evolveSkill p e = some (v, c)) :
    e.skillLevel = some v := by
  cases he : e.skillLevel with
  | none => simp [evolveSkill, he] at h
  | some s =>
    simp only [evolveSkill, he] at h
    split_ifs at h
    exact congrArg some (Prod.mk.injEq .. ▸ (Option.some.injEq .. ▸ h)).1

lemma evolveSkill_idem (p : UserProfile) (e : ExtractedPreferences) :
    evolveSkill (applyUpdate p (evolveProfile p e).updated) e = none := by
  cases hh : evolveSkill p e with
  | none =>
    rw [evolveSkill_congr p _ e (by rw [applyUpdate_skill, hh])]
    exact hh
  | some vc =>
    have hse := evolveSkill_shape p e vc.1 vc.2 (by rw [hh])
    have hcur : (applyUpdate p (evolveProfile p e).updated).skillLevel = some vc.1 := by
      rw [applyUpdate_skill, hh]
    have hne : (vc.1 == "") = false := by
      by_contra hx
      have hveq : vc.1 = "" := by
        cases hb : (vc.1 == "") with
        | false => exact absurd hb hx
        | true => exact eq_of_beq hb
      have hnone : evolveSkill p e = none := by
        simp [evolveSkill, hse, hveq]
      rw [hnone] at hh
      exact Option.noConfusion hh
    simp [evolveSkill, hse, hcur, hne]

lemma evolvePlaystyle_shape (p : UserProfile) (e : ExtractedPreferences)
    (v : String) (c : MemoryUpdate) (h : evolvePlaystyle p e = some (v, c)) :
    ∃ s, e.playstyle = some s ∧ (s == "") = false ∧ includesCI v s = true ∧
      (v == "") = false := by
  cases he : e.playstyle with
  | none => simp [evolvePlaystyle, he] at h
  | some s =>
    simp only [evolvePlaystyle, he] at h
    split_ifs at h with h1 h2 h3
    · obtain ⟨hv, hc⟩ := Prod.mk.injEq .. ▸ (Option.some.injEq .. ▸ h)
      refine ⟨s, rfl, by simpa using h1, ?_, ?_⟩
      · rw [← hv]
        exact includesCI_self s
      · rw [← hv]
        simpa using h1
    · obtain ⟨hv, hc⟩ := Prod.mk.injEq .. ▸ (Option.some.injEq .. ▸ h)
      refine ⟨s, rfl, by simpa using h1, ?_, ?_⟩
      · rw [← hv]
        exact includesCI_append_self _ s
      · rw [← hv]
        rw [beq_eq_false_iff_ne]
        intro hEq
        have hlen := congrArg String.length hEq
        rw [String.length_append, String.length_append] at hlen
        have h2len : (", ").length = 2 := rfl
        have h0len : ("" : String).length = 0 := rfl
        rw [h2len, h0len] at hlen
        omega

lemma evolvePlaystyle_idem (p : UserProfile) (e : ExtractedPreferences) :
    evolvePlaystyle (applyUpdate p (evolveProfile p e).updated) e = none := by
  cases hh : evolvePlaystyle p e with
  | none =>
    rw [evolvePlaystyle_congr p _ e (by rw [applyUpdate_playstyle, hh])]
    exact hh
  | some vc =>
    obtain ⟨s, hse, hsne, hinc, hvne⟩ := evolvePlaystyle_shape p e vc.1 vc.2 (by rw [hh])
    have hcur : (applyUpdate p (evolveProfile p e).updated).playstyle = some vc.1 := by
      rw [applyUpdate_playstyle, hh]
    simp [evolvePlaystyle, hse, hcur, hsne, truthyStr, hvne, hinc]

lemma evolveProfile_eq_empty (c : UserProfile) (e : ExtractedPreferences)
    (h1 : evolveHeroes c e = none) (h2 : evolveRoles c e = none)
    (h3 : evolveSkill c e = none) (h4 : evolvePlaystyle c e = none)
    (h5 : evolveGoals c e = none) :
    evolveProfile c e = { updated := {}, changes := [] } := by
  simp [evolveProfile, h1, h2, h3, h4, h5]

/-- C2.  Evolution is idempotent: applying the `updated` fields of
`evolveProfile p e` to `p` and evolving again with the same extracted
record yields an empty partial record and an empty change list. -/
theorem evolve_idempotent (p : UserProfile) (e : ExtractedPreferences) :
    evolveProfile (applyUpdate p (evolveProfile p e).updated) e =
      { updated := {}, changes := [] } :=
  evolveProfile_eq_empty _ e (evolveHeroes_idem p e) (evolveRoles_idem p e)
    (evolveSkill_idem p e) (evolvePlaystyle_idem p e) (evolveGoals_idem p e)

/-! ## C9: playstyle per-field policy -/

lemma evolveProfile_changes (p : UserProfile) (e : ExtractedPreferences) :
    (evolveProfile p e).changes =
      ((evolveHeroes p e).map (·.2)).toList ++ ((evolveRoles p e).map (·.2)).toList ++
        ((evolveSkill p e).map (·.2)).toList ++ ((evolvePlaystyle p e).map (·.2)).toList ++
        ((evolveGoals p e).map (·.2)).toList := rfl

lemma evolveHeroes_field (p : UserProfile) (e : ExtractedPreferences)
    (vc : List String × MemoryUpdate) (h : evolveHeroes p e = some vc) :
    vc.2.field = "preferredHeroes" := by
  cases he : e.heroes with
  | none => simp [evolveHeroes, he] at h
  | some hs =>
    simp only [evolveHeroes, he] at h
    split_ifs at h
    cases h
    rfl

lemma evolveRoles_field (p : UserProfile) (e : ExtractedPreferences)
    (vc : List String × MemoryUpdate) (h : evolveRoles p e = some vc) :
    vc.2.field = "preferredRoles" := by
  cases he : e.roles with
  | none => simp [evolveRoles, he] at h
  | some rs =>
    simp only [evolveRoles, he] at h
    split_ifs at h
    cases h
    rfl

lemma evolveSkill_field (p : UserProfile) (e : ExtractedPreferences)
    (vc : String × MemoryUpdate) (h : evolveSkill p e = some vc) :
    vc.2.field = "skillLevel" := by
  cases he : e.skillLevel with
  | none => simp [evolveSkill, he] at h
  | some s =>
    simp only [evolveSkill, he] at h
    split_ifs at h
    cases h
    rfl

lemma evolvePlaystyle_field (p : UserProfile) (e : ExtractedPreferences)
    (vc : String × MemoryUpdate) (h : evolvePlaystyle p e = some vc) :
    vc.2.field = "playstyle" := by
  cases he : e.playstyle with
  | none => simp [evolvePlaystyle, he] at h
  | some s =>
    simp only [evolvePlaystyle, he] at h
    split_ifs at h <;> (cases h; rfl)

lemma evolveGoals_field (p : UserProfile) (e : ExtractedPreferences)
    (vc : List String × MemoryUpdate) (h : evolveGoals p e = some vc) :
    vc.2.field = "learningGoals" := by
  cases he : e.learningGoals with
  | none => simp [evolveGoals, he] at h
  | some gs =>
    simp only [evolveGoals, he] at h
    split_ifs at h
    cases h
    rfl

lemma changes_playstyle_filter (p : UserProfile) (e : ExtractedPreferences) :
    (evolveProfile p e).changes.filter (fun u => u.field == "playstyle") =
      ((evolvePlaystyle p e).map (·.2)).toList := by
  rw [evolveProfile_changes]
  rw [List.filter_append, List.filter_append, List.filter_append, List.filter_append]
  have hH : (((evolveHeroes p e).map (·.2)).toList).filter (fun u => u.field == "playstyle") = [] := by
    cases hh : evolveHeroes p e with
    | none => rfl
    | some vc => simp [evolveHeroes_field p e vc hh]
  have hR : (((evolveRoles p e).map (·.2)).toList).filter (fun u => u.field == "playstyle") = [] := by
    cases hh : evolveRoles p e with
    | none => rfl
    | some vc => simp [evolveRoles_field p e vc hh]
  have hS : (((evolveSkill p e).map (·.2)).toList).filter (fun u => u.field == "playstyle") = [] := by
    cases hh : evolveSkill p e with
    | none => rfl
    | some vc => simp [evolveSkill_field p e vc hh]
  have hP : (((evolvePlaystyle p e).map (·.2)).toList).filter (fun u => u.field == "playstyle") =
      ((evolvePlaystyle p e).map (·.2)).toList := by
    cases hh : evolvePlaystyle p e with
    | none => rfl
    | some vc => simp [evolvePlaystyle_field p e vc hh]
  have hG : (((evolveGoals p e).map (·.2)).toList).filter (fun u => u.field == "playstyle") = [] := by
    cases hh : evolveGoals p e with
    | none => rfl
    | some vc => simp [evolveGoals_field p e vc hh]
  rw [hH, hR, hS, hP, hG]
  simp

/-- C9.  The playstyle policy of `evolveProfile`: the playstyle entries
of the change list are exactly the playstyle block's output, and that
block (i) replaces when the profile has no playstyle, (ii) is a no-op
when the extracted playstyle is already a case-insensitive substring of
the current one, and (iii) otherwise merges by concatenating
as old followed by a comma, a space, and the new value. -/
theorem playstyle_policy (p : UserProfile) (e : ExtractedPreferences) (s : String)
    (hs : e.playstyle = some s) (hne : s ≠ "") :
    ((evolveProfile p e).updated.playstyle = (evolvePlaystyle p e).map (·.1) ∧
     (evolveProfile p e).changes.filter (fun u => u.field == "playstyle") =
       ((evolvePlaystyle p e).map (·.2)).toList) ∧
    (truthyStr p.playstyle = false →
      evolvePlaystyle p e =
        some (s, ⟨"playstyle", optVal p.playstyle, .str s, .replace⟩)) ∧
    (∀ c, p.playstyle = some c → c ≠ "" → includesCI c s = true →
      evolvePlaystyle p e = none) ∧
    (∀ c, p.playstyle = some c → c ≠ "" → includesCI c s = false →
      evolvePlaystyle p e =
        some (c ++ ", " ++ s,
          ⟨"playstyle", optVal p.playstyle, .str (c ++ ", " ++ s), .merge⟩)) := by
  refine ⟨⟨rfl, changes_playstyle_filter p e⟩, ?_, ?_, ?_⟩
  · intro ht
    simp [evolvePlaystyle, hs, hne, ht]
  · intro c hc hcne hinc
    simp [evolvePlaystyle, hs, hne, hc, truthyStr, hcne, hinc]
  · intro c hc hcne hninc
    simp [evolvePlaystyle, hs, hne, hc, truthyStr, hcne, hninc]

/-- An extracted record whose playstyle differs from the profile's only
by case. -/
def ciExtracted : ExtractedPreferences :=
  { playstyle := some "Aggressive" }

/-- Witness for C9 at concrete inputs: the spec's containment example,
profile playstyle aggressive and extracted playstyle Aggressive. -/
theorem playstyle_policy_witness :
    ciExtracted.playstyle = some "Aggressive" ∧ "Aggressive" ≠ "" ∧
    sampleProfile.playstyle = some "aggressive" ∧ "aggressive" ≠ "" ∧
    includesCI "aggressive" "Aggressive" = true ∧
    evolvePlaystyle sampleProfile ciExtracted = none :=
  ⟨rfl, by decide, rfl, by decide, by decide,
   (playstyle_policy sampleProfile ciExtracted "Aggressive" rfl (by decide)).2.2.1
     "aggressive" rfl (by decide) (by decide)⟩

/-! ## C7: extraction failure is swallowed -/

/-- C7.  If parsing the (fence-stripped, trimmed) completion text
throws, or validation throws — which happens exactly when the parsed
value is JSON null — `extractPreferences` returns the empty record
rather than propagating the exception; and `hasPreferences` of the
empty record is false. -/
theorem extraction_failure_swallowed (parse : String → Option Json) (content : String) :
    (parse (stripFence content.trim) = none →
      extractPreferencesCore parse content = {}) ∧
    (parse (stripFence content.trim) = some .null →
      extractPreferencesCore parse content = {}) ∧
    hasPreferences {} = false := by
  refine ⟨?_, ?_, rfl⟩
  · intro h
    simp [extractPreferencesCore, h]
  · intro h
    simp [extractPreferencesCore, h, validatePrefs, Json.isNull]

/-- Witness for C7 at a concrete input: a parse function that always
throws. -/
theorem extraction_failure_swallowed_witness :
    (fun _ : String => (none : Option Json)) (stripFence ("not json".trim)) = none ∧
    extractPreferencesCore (fun _ => none) "not json" = {} ∧
    hasPreferences {} = false :=
  ⟨rfl, (extraction_failure_swallowed (fun _ => none) "not json").1 rfl,
   (extraction_failure_swallowed (fun _ => none) "not json").2.2⟩

/-! ## C8: role vocabulary filtering -/

lemma extractPreferencesCore_eq_of_ok (parse : String → Option Json) (content : String)
    (j : Json) (E : ExtractedPreferences)
    (hp : parse (stripFence content.trim) = some j) (hv : validatePrefs j = .ok E) :
    extractPreferencesCore parse content = E := by
  simp [extractPreferencesCore, hp, hv]

lemma validatePrefs_roles_vocab (j : Json) (E : ExtractedPreferences)
    (hE : validatePrefs j = .ok E) (rs : List String) (hrs : E.roles = some rs)
    (r : String) (hr : r ∈ rs) : validRoles.contains (strLower r) = true := by
  by_cases hn : j.isNull
  · simp [validatePrefs, hn] at hE
  · simp only [validatePrefs, hn, Bool.false_eq_true, if_false, Except.ok.injEq] at hE
    rw [← hE] at hrs
    simp only at hrs
    cases hgf : j.getField "roles" with
    | none => rw [hgf] at hrs; simp at hrs
    | some jv =>
      rw [hgf] at hrs
      cases jv with
      | arr xs =>
        simp only at hrs
        split_ifs at hrs
        simp only [Option.some.injEq] at hrs
        rw [← hrs] at hr
        obtain ⟨a, _, hfa⟩ := List.mem_filterMap.mp hr
        cases has : a.asStr with
        | none => rw [has] at hfa; simp at hfa
        | some rr =>
          rw [has] at hfa
          simp only at hfa
          split_ifs at hfa with hvoc
          · simp only [Option.some.injEq] at hfa
            rw [← hfa]
            exact hvoc
      | null => simp at hrs
      | bool b => simp at hrs
      | num n => simp at hrs
      | str s => simp at hrs
      | obj fields => simp at hrs

/-- C8.  A role outside the extractor's fixed vocabulary is dropped by
validation: every role in the validated record is (case-insensitively)
in the vocabulary, every role after the evolution merge is either an
old profile role or in the vocabulary, and the example role jungler is
not in the vocabulary. -/
theorem role_filtering (parse : String → Option Json) (content : String)
    (p : UserProfile) (r : String) :
    (∀ rs, (extractPreferencesCore parse content).roles = some rs → r ∈ rs →
      validRoles.contains (strLower r) = true) ∧
    (r ∈ rolesAfter p (extractPreferencesCore parse content) →
      r ∈ p.preferredRoles ∨ validRoles.contains (strLower r) = true) ∧
    validRoles.contains (strLower "jungler") = false := by
  refine ⟨?_, ?_, by decide⟩
  · intro rs hrs hr
    cases hpr : parse (stripFence content.trim) with
    | none =>
      rw [(extraction_failure_swallowed parse content).1 hpr] at hrs
      simp at hrs
    | some j =>
      cases hv : validatePrefs j with
      | error u =>
        have : extractPreferencesCore parse content = {} := by
          simp [extractPreferencesCore, hpr, hv]
        rw [this] at hrs
        simp at hrs
      | ok E =>
        rw [extractPreferencesCore_eq_of_ok parse content j E hpr hv] at hrs
        exact validatePrefs_roles_vocab j E hv rs hrs r hr
  · intro hmem
    rw [rolesAfter_eq] at hmem
    cases hh : evolveRoles p (extractPreferencesCore parse content) with
    | none =>
      rw [hh] at hmem
      exact Or.inl (by simpa using hmem)
    | some vc =>
      obtain ⟨rs, hre, hv⟩ := evolveRoles_shape p _ vc.1 vc.2 (by rw [hh])
      rw [hh] at hmem
      simp only [Option.map_some', Option.getD_some, hv] at hmem
      rcases List.mem_append.mp hmem with hold | hnew
      · exact Or.inl hold
      · have hrrs : r ∈ rs := (List.mem_filter.mp hnew).1
        cases hpr : parse (stripFence content.trim) with
        | none =>
          rw [(extraction_failure_swallowed parse content).1 hpr] at hre
          simp at hre
        | some j =>
          cases hvv : validatePrefs j with
          | error u =>
            have : extractPreferencesCore parse content = {} := by
              simp [extractPreferencesCore, hpr, hvv]
            rw [this] at hre
            simp at hre
          | ok E =>
            rw [extractPreferencesCore_eq_of_ok parse content j E hpr hvv] at hre
            exact Or.inr (validatePrefs_roles_vocab j E hvv rs hre r hrrs)

/-- A parse function returning a fixed roles payload containing an
out-of-vocabulary role. -/
def junglerParse : String → Option Json :=
  fun _ => some (.obj [("roles", .arr [.str "jungler", .str "Mid"])])

/-- Witness for C8 at concrete inputs: jungler is dropped, Mid is
kept and is in the vocabulary. -/
theorem role_filtering_witness :
    (extractPreferencesCore junglerParse "whatever").roles = some ["Mid"] ∧
    "Mid" ∈ (["Mid"] : List String) ∧
    validRoles.contains (strLower "Mid") = true :=
  ⟨by decide, by decide,
   (role_filtering junglerParse "whatever" blankProfile "Mid").1 ["Mid"] (by decide) (by decide)⟩

/-! ## C5 / C10: Anthropic request shaping -/

/-- The content of the last system-role message of a message list, when
one exists (a claim-side description of what the collection loop keeps). -/
def lastSystemContent : List ChatMessage → Option String
  | [] => none
  | m :: rest =>
    match lastSystemContent rest with
    | some c => some c
    | none => if m.role == ChatRole.system then some m.content else none

lemma foldl_anthropicStep_fst (msgs : List ChatMessage)
    (acc : Option String × List ChatMessage) :
    (msgs.foldl anthropicStep acc).1 =
      (match lastSystemContent msgs with
       | some c => some c
       | none => acc.1) := by
  induction msgs generalizing acc with
  | nil => rfl
  | cons m rest ih =>
    rw [List.foldl_cons, ih]
    simp only [lastSystemContent]
    cases lastSystemContent rest with
    | some c => rfl
    | none => cases hr : m.role <;> simp [anthropicStep, hr]

lemma foldl_anthropicStep_no_system (msgs : List ChatMessage)
    (acc : Option String × List ChatMessage)
    (hacc : ∀ m ∈ acc.2, m.role ≠ ChatRole.system) :
    ∀ m ∈ (msgs.foldl anthropicStep acc).2, m.role ≠ ChatRole.system := by
  induction msgs generalizing acc with
  | nil => exact hacc
  | cons m rest ih =>
    rw [List.foldl_cons]
    apply ih
    intro x hx
    cases hr : m.role with
    | system =>
      simp only [anthropicStep, hr] at hx
      exact hacc x hx
    | user =>
      simp only [anthropicStep, hr] at hx
      rcases List.mem_append.mp hx with h | h
      · exact hacc x h
      · rw [List.mem_singleton.mp h, hr]
        decide
    | assistant =>
      simp only [anthropicStep, hr] at hx
      rcases List.mem_append.mp hx with h | h
      · exact hacc x h
      · rw [List.mem_singleton.mp h, hr]
        decide

lemma anthropicBody_messages_no_system (model : String) (msgs : List ChatMessage)
    (mt : Nat) (t : Rat) :
    ∀ m ∈ (anthropicBody model msgs mt t).messages, m.role ≠ ChatRole.system := by
  intro m hm
  exact foldl_anthropicStep_no_system msgs (none, []) (by intro x hx; simp at hx) m hm

lemma anthropicBody_system (model : String) (msgs : List ChatMessage)
    (mt : Nat) (t : Rat) :
    (anthropicBody model msgs mt t).system =
      (match lastSystemContent msgs with
       | some c => if c == "" then none else some c
       | none => none) := by
  have h2 : (anthropicBody model msgs mt t).system =
      (match (msgs.foldl anthropicStep (none, [])).1 with
       | some s => if s == "" then none else some s
       | none => none) := rfl
  rw [h2, foldl_anthropicStep_fst msgs (none, [])]
  cases lastSystemContent msgs <;> rfl

/-- C5.  Anthropic request shaping: for the concrete message list with
a system message X and a user message Y the wire payload carries X as
the top-level system field and only the user message in the messages
array; and in general no system-role message ever appears in the
emitted messages array. -/
theorem anthropic_request_shaping :
    (anthropicBody "claude-sonnet-4-20250514" [⟨.system, "X"⟩, ⟨.user, "Y"⟩] 1024 1).system =
      some "X" ∧
    (anthropicBody "claude-sonnet-4-20250514" [⟨.system, "X"⟩, ⟨.user, "Y"⟩] 1024 1).messages =
      [⟨.user, "Y"⟩] ∧
    ∀ (model : String) (msgs : List ChatMessage) (mt : Nat) (t : Rat),
      ∀ m ∈ (anthropicBody model msgs mt t).messages, m.role ≠ ChatRole.system :=
  ⟨by decide, by decide, fun model msgs mt t => anthropicBody_messages_no_system model msgs mt t⟩

/-- Witness for C5's universal part at a concrete input. -/
theorem anthropic_request_shaping_witness :
    (⟨ChatRole.user, "Y"⟩ : ChatMessage) ∈
      (anthropicBody "m" [⟨.system, "X"⟩, ⟨.user, "Y"⟩] 1024 1).messages ∧
    (⟨ChatRole.user, "Y"⟩ : ChatMessage).role ≠ ChatRole.system :=
  ⟨by decide,
   anthropic_request_shaping.2.2 "m" [⟨.system, "X"⟩, ⟨.user, "Y"⟩] 1024 1
     ⟨.user, "Y"⟩ (by decide)⟩

/-- A message list with two system messages, the last one empty. -/
def doubleSystemMsgs : List ChatMessage :=
  [⟨.system, "A"⟩, ⟨.system, ""⟩]

/-- C10 counterexample: with two system messages the last of which has
empty content, the emitted payload has no top-level system field at all
(the truthiness test drops the empty string), whereas the claim asserts
the field equals the last system message's content. -/
theorem anthropic_last_system_counterexample :
    (doubleSystemMsgs.filter (fun m => m.role == ChatRole.system)).length = 2 ∧
    lastSystemContent doubleSystemMsgs = some "" ∧
    (anthropicBody "m" doubleSystemMsgs 1024 1).system = none ∧
    (anthropicBody "m" doubleSystemMsgs 1024 1).system ≠ lastSystemContent doubleSystemMsgs := by
  decide

/-- C10 amended.  The Anthropic path removes system-role messages at
any position from the emitted messages array, and the top-level system
field equals the content of the last system message when that content
is non-empty; when there is no system message, or the last one has
empty content, the field is absent. -/
theorem anthropic_system_extraction (model : String) (msgs : List ChatMessage)
    (mt : Nat) (t : Rat) :
    (∀ m ∈ (anthropicBody model msgs mt t).messages, m.role ≠ ChatRole.system) ∧
    (anthropicBody model msgs mt t).system =
      (match lastSystemContent msgs with
       | some c => if c == "" then none else some c
       | none => none) :=
  ⟨anthropicBody_messages_no_system model msgs mt t, anthropicBody_system model msgs mt t⟩

/-- Witness for the amended C10 at a concrete input with two system
messages, the last one non-empty. -/
theorem anthropic_system_extraction_witness :
    (⟨ChatRole.user, "Y"⟩ : ChatMessage) ∈
      (anthropicBody "m" [⟨.system, "A"⟩, ⟨.user, "Y"⟩, ⟨.system, "B"⟩] 1 1).messages ∧
    (⟨ChatRole.user, "Y"⟩ : ChatMessage).role ≠ ChatRole.system ∧
    (anthropicBody "m" [⟨.system, "A"⟩, ⟨.user, "Y"⟩, ⟨.system, "B"⟩] 1 1).system = some "B" :=
  ⟨by decide,
   (anthropic_system_extraction "m" [⟨.system, "A"⟩, ⟨.user, "Y"⟩, ⟨.system, "B"⟩] 1 1).1
     ⟨.user, "Y"⟩ (by decide),
   by rw [(anthropic_system_extraction "m" [⟨.system, "A"⟩, ⟨.user, "Y"⟩, ⟨.system, "B"⟩] 1 1).2]
      decide⟩

/-! ## C6: provider auto-selection -/

/-- Decidable equality of construction and parse results. -/
instance {e a : Type} [DecidableEq e] [DecidableEq a] : DecidableEq (Except e a) := fun x y =>
  match x, y with
  | .ok u, .ok v =>
    if h : u = v then .isTrue (by rw [h])
    else .isFalse (fun hc => h (Except.ok.inj hc))
  | .error u, .error v =>
    if h : u = v then .isTrue (by rw [h])
    else .isFalse (fun hc => h (Except.error.inj hc))
  | .ok u, .error v => .isFalse (fun hc => Except.noConfusion hc)
  | .error u, .ok v => .isFalse (fun hc => Except.noConfusion hc)

/-- The provider component of a construction result. -/
def providerOf (r : Except LLMError LLMService) : Except LLMError Provider :=
  r.map (·.provider)

/-- Claim-side predicate: an explicit provider preference is given and
the key for that provider is present (truthy). -/
def explicitPrefUsable (env : Env) : Prop :=
  (env.LLM_PROVIDER = some "anthropic" ∧ truthyStr env.ANTHROPIC_API_KEY = true) ∨
  (env.LLM_PROVIDER = some "openai" ∧ truthyStr env.OPENAI_API_KEY = true) ∨
  (env.LLM_PROVIDER = some "openrouter" ∧ truthyStr env.OPENROUTER_API_KEY = true)

/-- C6.  Provider auto-selection: an explicit usable preference wins;
otherwise the fixed priority order Anthropic, OpenAI, OpenRouter over
the present keys applies, failing with the no-provider error when no
key is present; and the claim's two concrete scenarios (only an
OpenRouter key selects OpenRouter with its default model; Anthropic and
OpenAI keys with an explicit OpenAI preference select OpenAI). -/
theorem provider_auto_selection (env : Env) :
    (env.LLM_PROVIDER = some "anthropic" → truthyStr env.ANTHROPIC_API_KEY = true →
      providerOf (createLLMService env) = .ok .anthropic) ∧
    (env.LLM_PROVIDER = some "openai" → truthyStr env.OPENAI_API_KEY = true →
      providerOf (createLLMService env) = .ok .openai) ∧
    (env.LLM_PROVIDER = some "openrouter" → truthyStr env.OPENROUTER_API_KEY = true →
      providerOf (createLLMService env) = .ok .openrouter) ∧
    (¬ explicitPrefUsable env →
      providerOf (createLLMService env) =
        (if truthyStr env.ANTHROPIC_API_KEY then .ok .anthropic
         else if truthyStr env.OPENAI_API_KEY then .ok .openai
         else if truthyStr env.OPENROUTER_API_KEY then .ok .openrouter
         else .error .noProviderConfigured)) ∧
    createLLMService { OPENROUTER_API_KEY := some "rk" } =
      .ok { provider := .openrouter, apiKey := "rk", model := "openai/gpt-4o-mini",
            baseUrl := "https://openrouter.ai/api/v1" } ∧
    createLLMService { ANTHROPIC_API_KEY := some "ak", OPENAI_API_KEY := some "ok2",
                       LLM_PROVIDER := some "openai" } =
      .ok { provider := .openai, apiKey := "ok2", model := "gpt-4o-mini",
            baseUrl := "https://api.openai.com/v1" } := by
  refine ⟨?_, ?_, ?_, ?_, by decide, by decide⟩
  · intro h1 h2
    simp [createLLMService, providerOf, h1, h2, mkLLMService, Except.map]
  · intro h1 h2
    simp [createLLMService, providerOf, h1, h2, mkLLMService, Except.map]
  · intro h1 h2
    simp [createLLMService, providerOf, h1, h2, mkLLMService, Except.map]
  · intro h
    have c1 : (env.LLM_PROVIDER == some "anthropic" && truthyStr env.ANTHROPIC_API_KEY) = false := by
      by_cases hp : env.LLM_PROVIDER = some "anthropic"
      · have hk : truthyStr env.ANTHROPIC_API_KEY = false := by
          by_contra hx
          exact h (Or.inl ⟨hp, by revert hx; cases truthyStr env.ANTHROPIC_API_KEY <;> simp⟩)
        simp [hp, hk]
      · simp [hp]
    have c2 : (env.LLM_PROVIDER == some "openai" && truthyStr env.OPENAI_API_KEY) = false := by
      by_cases hp : env.LLM_PROVIDER = some "openai"
      · have hk : truthyStr env.OPENAI_API_KEY = false := by
          by_contra hx
          exact h (Or.inr (Or.inl ⟨hp, by revert hx; cases truthyStr env.OPENAI_API_KEY <;> simp⟩))
        simp [hp, hk]
      · simp [hp]
    have c3 : (env.LLM_PROVIDER == some "openrouter" && truthyStr env.OPENROUTER_API_KEY) = false := by
      by_cases hp : env.LLM_PROVIDER = some "openrouter"
      · have hk : truthyStr env.OPENROUTER_API_KEY = false := by
          by_contra hx
          exact h (Or.inr (Or.inr ⟨hp, by revert hx; cases truthyStr env.OPENROUTER_API_KEY <;> simp⟩))
        simp [hp, hk]
      · simp [hp]
    cases ha : truthyStr env.ANTHROPIC_API_KEY <;>
      cases hb : truthyStr env.OPENAI_API_KEY <;>
        cases hc : truthyStr env.OPENROUTER_API_KEY <;>
        · simp only [createLLMService, providerOf, c1, c2, c3, Bool.false_eq_true, if_false]
          simp [ha, hb, hc, Except.map, mkLLMService]

/-- Witness for C6 at a concrete environment with an explicit usable
Anthropic preference. -/
theorem provider_auto_selection_witness :
    ({ ANTHROPIC_API_KEY := some "k", LLM_PROVIDER := some "anthropic" } : Env).LLM_PROVIDER =
      some "anthropic" ∧
    truthyStr ({ ANTHROPIC_API_KEY := some "k", LLM_PROVIDER := some "anthropic" } : Env).ANTHROPIC_API_KEY = true ∧
    providerOf (createLLMService { ANTHROPIC_API_KEY := some "k", LLM_PROVIDER := some "anthropic" }) =
      .ok .anthropic :=
  ⟨rfl, by decide,
   (provider_auto_selection { ANTHROPIC_API_KEY := some "k", LLM_PROVIDER := some "anthropic" }).1
     rfl (by decide)⟩

/-! ## C3: empty-completion handling -/

/-- An OpenAI-family response whose completion is a single space. -/
def wsOpenAIData : OpenAIData :=
  { choices := some [{ message := some (some " ") }], usage := none }

/-- An Anthropic response whose completion is a single space. -/
def wsAnthropicData : AnthropicData :=
  { content := some [{ type := "text", text := some " " }], usage := none }

/-- C3 counterexample: a whitespace-only (but non-empty) completion
string — the single space — passes the JavaScript truthiness check on
both provider paths and is returned as a valid answer, not as the
empty-completion error. -/
theorem empty_completion_counterexample :
    (" " : String) ≠ "" ∧
    (" ").data.all Char.isWhitespace = true ∧
    chatOpenAIParse wsOpenAIData = .ok { content := " ", usage := none } ∧
    chatOpenAIParse wsOpenAIData ≠ .error .emptyCompletion ∧
    chatAnthropicParse wsAnthropicData = .ok { content := " ", usage := none } ∧
    chatAnthropicParse wsAnthropicData ≠ .error .emptyCompletion := by
  decide

/-- C3 amended.  On both provider paths, exactly the empty parsed
completion string yields the empty-completion error; any non-empty
string — whitespace-only included — is returned as the answer. -/
theorem empty_completion_policy (dOAI : OpenAIData) (dA : AnthropicData) :
    (openAIContent dOAI = "" → chatOpenAIParse dOAI = .error .emptyCompletion) ∧
    (openAIContent dOAI ≠ "" →
      chatOpenAIParse dOAI =
        .ok { content := openAIContent dOAI,
              usage := dOAI.usage.map (fun u => ⟨u.1.getD 0, u.2.getD 0⟩) }) ∧
    (anthropicContent dA = "" → chatAnthropicParse dA = .error .emptyCompletion) ∧
    (anthropicContent dA ≠ "" →
      chatAnthropicParse dA =
        .ok { content := anthropicContent dA,
              usage := dA.usage.map (fun u => ⟨u.1.getD 0, u.2.getD 0⟩) }) := by
  refine ⟨?_, ?_, ?_, ?_⟩ <;> intro h <;>
    simp [chatOpenAIParse, chatAnthropicParse, h]

/-- Witness for the amended C3 at concrete inputs: a choices-less
response errors, the single-space response is returned as-is. -/
theorem empty_completion_policy_witness :
    openAIContent { choices := none, usage := none } = "" ∧
    chatOpenAIParse { choices := none, usage := none } = .error .emptyCompletion ∧
    anthropicContent wsAnthropicData ≠ "" ∧
    chatAnthropicParse wsAnthropicData = .ok { content := " ", usage := none } :=
  ⟨rfl,
   (empty_completion_policy { choices := none, usage := none } wsAnthropicData).1 rfl,
   by decide,
   by
     rw [(empty_completion_policy { choices := none, usage := none } wsAnthropicData).2.2.2
       (by decide)]
     decide⟩
